import Mathlib

/-!
Verification of the HMAC engine from
`src/hashing-message-authentication-code-algorithm.py`.

Bytes are modelled as natural numbers below 256 in `List Nat`.  A hash
capability (the external collaborator of spec §3/§6: an object with
`update`, `digest`, `copy`, optional `block_size`, and `digest_size`) is
modelled extensionally: the observable behaviour of such an object is a
function from the byte stream fed so far to the digest bytes, together
with its declared size attributes.  A live hash instance is then just the
buffer of bytes fed to it; `update` appends, `digest` applies the digest
function, `copy` duplicates the buffer.

The HMAC engine itself is translated statement by statement from the
Python source.  Stateful methods become state transformers
(`HMACState → result × HMACState`); methods that never assign to `self`
return the receiver unchanged, exactly as the source does.
-/

namespace HmacSpec

/-- `trans_5C` applied via `bytes.translate`: every byte is XORed with
`0x5C` (source line 15: `trans_5C = bytes((x ^ 0x5C) for x in range(256))`). -/
def trans5C (l : List Nat) : List Nat := l.map (fun b => (b % 256) ^^^ 0x5C)

/-- `trans_36` applied via `bytes.translate`: every byte is XORed with
`0x36` (source line 16). -/
def trans36 (l : List Nat) : List Nat := l.map (fun b => (b % 256) ^^^ 0x36)

/-- Python `key.ljust(blocksize, b'\x00')`: right-pad with zero bytes up to
width `n`; a longer key is returned unchanged (truncated subtraction). -/
def ljust (l : List Nat) (n : Nat) : List Nat :=
  l ++ List.replicate (n - l.length) 0

/-- Lowercase hex digit for a value below 16. -/
def hexChar (n : Nat) : Char :=
  if n < 10 then Char.ofNat (48 + n) else Char.ofNat (87 + n)

/-- Lowercase hexadecimal encoding of a byte string, as Python
`hexdigest()` produces. -/
def hexOfBytes (l : List Nat) : String :=
  String.mk (l.foldr (fun b acc => hexChar (b % 256 / 16) :: hexChar (b % 16) :: acc) [])

/-- A hash capability: the external hash-function collaborator, given
extensionally.  `digestFn` maps the whole byte stream fed to an instance
to its digest; `blockSize?` is the optional declared `block_size`
attribute (`none` models a digest object without the attribute);
`digestSize` is the declared `digest_size`. -/
structure HashCap where
  digestFn : List Nat → List Nat
  blockSize? : Option Nat
  digestSize : Nat

/-- A live hash instance is the buffer of bytes fed so far; `update`
appends to it. -/
def HashCap.instUpdate (buf msg : List Nat) : List Nat := buf ++ msg

/-- `digest()` on a live instance with buffer `buf`. -/
def HashCap.instDigest (cap : HashCap) (buf : List Nat) : List Nat :=
  cap.digestFn buf

/-- The class attribute `HMAC.blocksize = 64` (source line 24). -/
def HMAC.blocksize : Nat := 64

/-- The two non-fatal diagnostics of `HMAC.__init__` (source lines
97–106): a declared `block_size` below 16, or a digest object without a
`block_size` attribute. -/
inductive BlockSizeWarning where
  | weakBlockSize (declared : Nat)
  | missingBlockSize
  deriving DecidableEq, Repr

/-- The HMAC session state.  `digest_cons`, `digest_size`, `inner` and
`outer` are the instance attributes every session carries; `block_size`
is `some _` only when the attribute was set (in `__init__`) — `copy()`
does not set it, and the class itself has no attribute of that name
(only `blocksize`), so on a copy it is `none` (AttributeError). -/
structure HMACState where
  digest_cons : HashCap
  digest_size : Nat
  inner : List Nat
  outer : List Nat
  block_size : Option Nat

/-- Block-size resolution of `HMAC.__init__` (source lines 95–106): use
the declared `block_size` when present and at least 16, otherwise the
class default 64. -/
def resolvedBlockSize (cap : HashCap) : Nat :=
  match cap.blockSize? with
  | some bs => if bs < 16 then HMAC.blocksize else bs
  | none => HMAC.blocksize

/-- The warnings `HMAC.__init__` emits while resolving the block size. -/
def blockSizeWarnings (cap : HashCap) : List BlockSizeWarning :=
  match cap.blockSize? with
  | some bs => if bs < 16 then [BlockSizeWarning.weakBlockSize bs] else []
  | none => [BlockSizeWarning.missingBlockSize]

/-- `HMAC.update` (source lines 125–127): feeds `msg` into `inner` only. -/
def HMAC.update (s : HMACState) (msg : List Nat) : HMACState :=
  { s with inner := HashCap.instUpdate s.inner msg }

/-- The body of `HMAC.__init__` after the key/digestmod checks (source
lines 90–119), for a capability-valued `digestmod`: returns the
constructed session together with the warnings emitted. -/
def HMAC.mkWith (cap : HashCap) (key : List Nat) (msg : Option (List Nat)) :
    HMACState × List BlockSizeWarning :=
  let blocksize := resolvedBlockSize cap
  let key1 := if key.length > blocksize then cap.digestFn key else key
  let key2 := ljust key1 blocksize
  let outer := HashCap.instUpdate [] (trans5C key2)
  let inner := HashCap.instUpdate [] (trans36 key2)
  let s : HMACState :=
    { digest_cons := cap, digest_size := cap.digestSize,
      inner := inner, outer := outer, block_size := some blocksize }
  let s := match msg with
    | some m => HMAC.update s m
    | none => s
  (s, blockSizeWarnings cap)

/-- `HMAC.copy` (source lines 148–153): a fresh object receiving exactly
`digest_cons`, `digest_size`, and copies of `inner` and `outer`; the
`block_size` attribute is not assigned, and the class supplies no
attribute of that name, so it is absent on the copy. -/
def HMAC.copy (s : HMACState) : HMACState :=
  { digest_cons := s.digest_cons, digest_size := s.digest_size,
    inner := s.inner, outer := s.outer, block_size := none }

/-- `HMAC._current` (source lines 172–174): `h = self.outer.copy();
h.update(self.inner.digest())`; returns the buffer of the local `h`. -/
def HMAC.current (s : HMACState) : List Nat :=
  HashCap.instUpdate s.outer (HashCap.instDigest s.digest_cons s.inner)

/-- `HMAC.digest` as a state transformer (source lines 176–178): the body
only builds the local `h` and never assigns an attribute of `self`, so
the post-state is the receiver unchanged. -/
def HMAC.digestM (s : HMACState) : List Nat × HMACState :=
  (HashCap.instDigest s.digest_cons (HMAC.current s), s)

/-- `HMAC.hexdigest` as a state transformer (source lines 180–182). -/
def HMAC.hexdigestM (s : HMACState) : String × HMACState :=
  (hexOfBytes (HashCap.instDigest s.digest_cons (HMAC.current s)), s)

/-- The digest value a session currently yields. -/
def HMAC.digestRes (s : HMACState) : List Nat := (HMAC.digestM s).1

/-- Feed a list of messages one `update` at a time. -/
def HMAC.feedAll (s : HMACState) (msgs : List (List Nat)) : HMACState :=
  msgs.foldl HMAC.update s

/-- The `key` argument of `new` as Python sees it: the constructor
accepts `bytes` and `bytearray` and rejects everything else
(source line 76). -/
inductive KeyArg where
  | bytes (k : List Nat)
  | bytearray (k : List Nat)
  | str (s : String)
  | intVal (n : Int)

/-- A supplied `digestmod`, resolved to a capability.  The source also
accepts registry names and prototype objects; both resolve to a
constructor of hash instances, i.e. to a capability, so the embedding
takes the capability directly (the callable case, source line 82). -/
inductive DigestSpec where
  | callable (cap : HashCap)

/-- The constructor-time error kinds of spec §7: `InvalidKeyType` is the
`TypeError` of source line 77, `MissingAlgorithm` the `ValueError` of
source line 80. -/
inductive HMACError where
  | invalidKeyType
  | missingAlgorithm
  deriving DecidableEq, Repr

/-- `new(key, msg, digestmod)` (source lines 184–185 plus the checks of
`__init__`, lines 76–87): the key type is checked first, then the
presence of `digestmod`, then the session is built. -/
def hmacNew (key : KeyArg) (msg : Option (List Nat)) (digestmod : Option DigestSpec) :
    Except HMACError (HMACState × List BlockSizeWarning) :=
  match key with
  | KeyArg.bytes k =>
    match digestmod with
    | none => Except.error HMACError.missingAlgorithm
    | some (DigestSpec.callable cap) => Except.ok (HMAC.mkWith cap k msg)
  | KeyArg.bytearray k =>
    match digestmod with
    | none => Except.error HMACError.missingAlgorithm
    | some (DigestSpec.callable cap) => Except.ok (HMAC.mkWith cap k msg)
  | _ => Except.error HMACError.invalidKeyType

/-- The generic path of the one-shot `digest(key, msg, digest)` (source
lines 230–253).  Note this path resolves the block size with
`getattr(inner, 'block_size', 64)` (line 240) and, unlike the session
constructor, never clamps a declared value below 16.  (The OpenSSL fast
path of lines 226–228 applies only to string algorithm names resolved by
an external registry; a capability-valued argument always takes this
generic path.) -/
def digestOneShot (cap : HashCap) (key msg : List Nat) : List Nat :=
  let inner : List Nat := []
  let outer : List Nat := []
  let blocksize := cap.blockSize?.getD 64
  let key1 := if key.length > blocksize then cap.digestFn key else key
  let key2 := key1 ++ List.replicate (blocksize - key1.length) 0
  let inner := HashCap.instUpdate inner (trans36 key2)
  let outer := HashCap.instUpdate outer (trans5C key2)
  let inner := HashCap.instUpdate inner msg
  let outer := HashCap.instUpdate outer (HashCap.instDigest cap inner)
  HashCap.instDigest cap outer

/-! ### SHA-256

The underlying hash algorithms are external collaborators of the engine
(spec §1, §6); `hashlib.sha256` is modelled here by the SHA-256 standard
(FIPS 180-4) so that the known-answer claim can be computed.  Words are
naturals reduced modulo `2 ^ 32`. -/

/-- Right rotation of a 32-bit word. -/
def rotr32 (n x : Nat) : Nat :=
  let x := x % 2 ^ 32
  (x >>> n) ||| ((x <<< (32 - n)) % 2 ^ 32)

/-- FIPS 180-4 `Σ0`. -/
def bSig0 (x : Nat) : Nat := rotr32 2 x ^^^ rotr32 13 x ^^^ rotr32 22 x

/-- FIPS 180-4 `Σ1`. -/
def bSig1 (x : Nat) : Nat := rotr32 6 x ^^^ rotr32 11 x ^^^ rotr32 25 x

/-- FIPS 180-4 `σ0`. -/
def sSig0 (x : Nat) : Nat := rotr32 7 x ^^^ rotr32 18 x ^^^ ((x % 2 ^ 32) >>> 3)

/-- FIPS 180-4 `σ1`. -/
def sSig1 (x : Nat) : Nat := rotr32 17 x ^^^ rotr32 19 x ^^^ ((x % 2 ^ 32) >>> 10)

/-- FIPS 180-4 `Ch`. -/
def chFn (x y z : Nat) : Nat := (x &&& y) ^^^ ((x ^^^ 0xffffffff) &&& z)

/-- FIPS 180-4 `Maj`. -/
def majFn (x y z : Nat) : Nat := (x &&& y) ^^^ (x &&& z) ^^^ (y &&& z)

/-- The 64 SHA-256 round constants (FIPS 180-4 §4.2.2, here written in
decimal). -/
def sha256K : List Nat :=
  [1116352408, 1899447441, 3049323471, 3921009573, 961987163,
   1508970993, 2453635748, 2870763221, 3624381080, 310598401,
   607225278, 1426881987, 1925078388, 2162078206, 2614888103,
   3248222580, 3835390401, 4022224774, 264347078, 604807628,
   770255983, 1249150122, 1555081692, 1996064986, 2554220882,
   2821834349, 2952996808, 3210313671, 3336571891, 3584528711,
   113926993, 338241895, 666307205, 773529912, 1294757372,
   1396182291, 1695183700, 1986661051, 2177026350, 2456956037,
   2730485921, 2820302411, 3259730800, 3345764771, 3516065817,
   3600352804, 4094571909, 275423344, 430227734, 506948616,
   659060556, 883997877, 958139571, 1322822218, 1537002063,
   1747873779, 1955562222, 2024104815, 2227730452, 2361852424,
   2428436474, 2756734187, 3204031479, 3329325298]

/-- The SHA-256 initial hash value (FIPS 180-4 §5.3.3, in decimal). -/
def sha256H0 : List Nat :=
  [1779033703, 3144134277, 1013904242, 2773480762,
   1359893119, 2600822924, 528734635, 1541459225]

/-- Group a byte list into big-endian 32-bit words. -/
def toWordsBE : List Nat → List Nat
  | b0 :: b1 :: b2 :: b3 :: rest =>
      (b0 % 256 * 2 ^ 24 + b1 % 256 * 2 ^ 16 + b2 % 256 * 2 ^ 8 + b3 % 256)
        :: toWordsBE rest
  | _ => []

/-- Big-endian bytes of a 32-bit word. -/
def wordBytesBE (w : Nat) : List Nat :=
  [w / 2 ^ 24 % 256, w / 2 ^ 16 % 256, w / 2 ^ 8 % 256, w % 256]

/-- Extend the 16 block words to the 64-word message schedule. -/
def sha256Extend (ws : List Nat) : List Nat :=
  (List.range 48).foldl
    (fun acc _ =>
      let n := acc.length
      acc ++ [(sSig1 (acc.getD (n - 2) 0) + acc.getD (n - 7) 0 +
               sSig0 (acc.getD (n - 15) 0) + acc.getD (n - 16) 0) % 2 ^ 32])
    ws

/-- One SHA-256 round on the working state `[a,b,c,d,e,f,g,h]`, given the
round constant and schedule word. -/
def sha256Round (st : List Nat) (kw : Nat × Nat) : List Nat :=
  match st with
  | [a, b, c, d, e, f, g, h] =>
    let t1 := (h + bSig1 e + chFn e f g + kw.1 + kw.2) % 2 ^ 32
    let t2 := (bSig0 a + majFn a b c) % 2 ^ 32
    [(t1 + t2) % 2 ^ 32, a, b, c, (d + t1) % 2 ^ 32, e, f, g]
  | st => st

/-- The SHA-256 compression function on one 64-byte block. -/
def sha256Compress (h : List Nat) (block : List Nat) : List Nat :=
  let w := sha256Extend (toWordsBE block)
  let st := (sha256K.zip w).foldl sha256Round h
  (h.zip st).map (fun p => (p.1 + p.2) % 2 ^ 32)

/-- SHA-256 padding: append `0x80`, zero bytes to 56 mod 64, then the
bit length as 8 big-endian bytes. -/
def sha256Pad (msg : List Nat) : List Nat :=
  let zeros := (120 - (msg.length + 1) % 64) % 64
  msg ++ 0x80 :: List.replicate zeros 0 ++
    (List.range 8).map (fun i => ((8 * msg.length) >>> (56 - 8 * i)) % 256)

/-- Split a byte list into 64-byte chunks, with a structural fuel bound
so the kernel can evaluate it (each step drops at least one element, so
`l.length` steps always suffice). -/
def chunksAux : Nat → List Nat → List (List Nat)
  | 0, _ => []
  | _ + 1, [] => []
  | n + 1, b :: rest => (b :: rest).take 64 :: chunksAux n ((b :: rest).drop 64)

/-- Split a byte list into 64-byte chunks. -/
def chunks64 (l : List Nat) : List (List Nat) := chunksAux l.length l

/-- SHA-256 of a byte string (FIPS 180-4). -/
def sha256 (msg : List Nat) : List Nat :=
  ((chunks64 (sha256Pad msg)).foldl sha256Compress sha256H0).map wordBytesBE |>.flatten

/-- The `hashlib.sha256` capability: `block_size = 64`, `digest_size = 32`. -/
def sha256Cap : HashCap :=
  { digestFn := sha256, blockSize? := some 64, digestSize := 32 }

/-- ASCII bytes of a string literal. -/
def asciiBytes (s : String) : List Nat := s.toList.map Char.toNat

/-- The tag of a whole message in one session: construct with the message
as initial data and finalize. -/
def hmacTag (cap : HashCap) (key msg : List Nat) : List Nat :=
  (HMAC.digestM (HMAC.mkWith cap key (some msg)).1).1

/-! ### Concrete conforming capabilities used in tests

Each is a legal Hash Capability in the sense of spec §6: `digest` is a
function of the byte stream fed, with fixed declared sizes. -/

/-- A conforming capability whose declared `block_size` is 8 (below 16):
digest is the byte sum. -/
def capSmall : HashCap := ⟨fun l => [l.sum % 256], some 8, 1⟩

/-- A conforming capability with `block_size = 16` whose digest (32
bytes) is wider than its block. -/
def capWide : HashCap := ⟨fun l => List.replicate 32 (l.sum % 256), some 16, 32⟩

/-- A conforming capability with a sane declared `block_size` of 16 and a
1-byte digest. -/
def capSane : HashCap := ⟨fun l => [l.sum % 256], some 16, 1⟩

/-- A conforming capability that does not declare a `block_size`. -/
def capNoBlock : HashCap := ⟨fun l => [l.sum % 256], none, 1⟩

/-- A conforming capability with a declared `block_size` of 128. -/
def capBig : HashCap := ⟨fun l => [l.sum % 256], some 128, 1⟩

/-! ### Helper lemmas -/

/-- Updating a copy is copying the updated session: the two states agree
on every field `update` or `digest` ever reads. -/
theorem HMAC.update_copy (s : HMACState) (m : List Nat) :
    HMAC.update (HMAC.copy s) m = HMAC.copy (HMAC.update s m) := rfl

/-- Feeding a copy is copying the fed session. -/
theorem HMAC.feedAll_copy (s : HMACState) (msgs : List (List Nat)) :
    HMAC.feedAll (HMAC.copy s) msgs = HMAC.copy (HMAC.feedAll s msgs) := by
  induction msgs generalizing s with
  | nil => rfl
  | cons m rest ih =>
      simp only [HMAC.feedAll, List.foldl_cons] at *
      rw [HMAC.update_copy, ih]

/-- A copy yields the same digest as its source. -/
theorem HMAC.digestRes_copy (s : HMACState) :
    (HMAC.digestM (HMAC.copy s)).1 = (HMAC.digestM s).1 := rfl

/-- Constructing with an initial message is constructing without one and
then updating, with the same warnings. -/
theorem HMAC.mkWith_some (cap : HashCap) (key m : List Nat) :
    HMAC.mkWith cap key (some m)
      = (HMAC.update (HMAC.mkWith cap key none).1 m, (HMAC.mkWith cap key none).2) := rfl

/-! ### Claims -/

set_option maxRecDepth 10000 in
/-- Claim C2, counterexample: the engine's HMAC-SHA256 hexdigest for key
`b"key"` and message `b"The quick brown fox jumps over the lazy dog"` is
NOT the 63-hex-character vector printed in the spec — the spec's vector
is missing its final digit. -/
theorem hmac_sha256_kat_ne_spec_vector :
    (HMAC.hexdigestM (HMAC.mkWith sha256Cap (asciiBytes "key")
        (some (asciiBytes "The quick brown fox jumps over the lazy dog"))).1).1
      ≠ "f7bc83f430538424b13298e6aa6fb143ef4d59a14946175997479dbc2d1a3cd" := by
  decide

set_option maxRecDepth 10000 in
/-- Claim C2, amended: the HMAC-SHA256 hexdigest for key `b"key"` and
message `b"The quick brown fox jumps over the lazy dog"` equals the full
published test vector, whose last character `8` the spec dropped. -/
theorem hmac_sha256_kat_hexdigest :
    (HMAC.hexdigestM (HMAC.mkWith sha256Cap (asciiBytes "key")
        (some (asciiBytes "The quick brown fox jumps over the lazy dog"))).1).1
      = "f7bc83f430538424b13298e6aa6fb143ef4d59a14946175997479dbc2d1a3cd8" := by
  decide

/-- Claim C3: streaming equals batch — for every capability, key and
messages `m1`, `m2`, building a session with no initial message and
updating with `m1` then `m2` yields the same digest as building the
session with initial message `m1 ++ m2`. -/
theorem streaming_eq_batch (cap : HashCap) (k m1 m2 : List Nat) :
    (HMAC.digestM (HMAC.update (HMAC.update (HMAC.mkWith cap k none).1 m1) m2)).1
      = (HMAC.digestM (HMAC.mkWith cap k (some (m1 ++ m2))).1).1 := by
  simp [HMAC.mkWith, HMAC.update, HMAC.digestM, HMAC.current, HashCap.instUpdate,
        HashCap.instDigest, List.append_assoc]

/-- Claim C8: constructing with no hash factory — `new(b"key", None,
None)` — fails with the missing-algorithm error, and the error is the
constructor's own result (raised synchronously at construction). -/
theorem new_no_digestmod_missingAlgorithm :
    hmacNew (KeyArg.bytes (asciiBytes "key")) none none
      = Except.error HMACError.missingAlgorithm := rfl

/-- Claim C9: a key that is not a byte sequence (a text string or an
integer) is rejected at construction with the invalid-key-type error,
while any `bytes` or `bytearray` key of any length is accepted and the
session is built. -/
theorem key_type_validation :
    (∀ s m d, hmacNew (KeyArg.str s) m d = Except.error HMACError.invalidKeyType) ∧
    (∀ n m d, hmacNew (KeyArg.intVal n) m d = Except.error HMACError.invalidKeyType) ∧
    (∀ k m cap, hmacNew (KeyArg.bytes k) m (some (DigestSpec.callable cap))
        = Except.ok (HMAC.mkWith cap k m)) ∧
    (∀ k m cap, hmacNew (KeyArg.bytearray k) m (some (DigestSpec.callable cap))
        = Except.ok (HMAC.mkWith cap k m)) :=
  ⟨fun _ _ _ => rfl, fun _ _ _ => rfl, fun _ _ _ => rfl, fun _ _ _ => rfl⟩

/-- Claim C10, counterexample: on a session built over a capability whose
block size resolves to 128, the copy's `block_size` attribute does not
read as the class-level default 64 — `copy()` never sets it and the class
stores the default under the distinct name `blocksize`, so the read is an
`AttributeError` (modelled `none`), not 64. -/
theorem copy_block_size_not_default :
    resolvedBlockSize capBig = 128 ∧
    (HMAC.mkWith capBig [] none).1.block_size = some 128 ∧
    (HMAC.copy (HMAC.mkWith capBig [] none).1).block_size ≠ some HMAC.blocksize := by
  decide

/-- Claim C10, amended: `copy()` carries exactly `digest_cons`,
`digest_size`, `inner` and `outer`; the resolved `block_size` is not
transferred, and reading `block_size` on a copy finds no attribute at all
(AttributeError), because the class-level default is stored under the
different name `blocksize`. -/
theorem copy_fields_exact (s : HMACState) :
    (HMAC.copy s).digest_cons = s.digest_cons ∧
    (HMAC.copy s).digest_size = s.digest_size ∧
    (HMAC.copy s).inner = s.inner ∧
    (HMAC.copy s).outer = s.outer ∧
    (HMAC.copy s).block_size = none :=
  ⟨rfl, rfl, rfl, rfl, rfl⟩

set_option maxRecDepth 10000 in
/-- Claim C1, counterexample: for a conforming capability whose declared
`block_size` is 8 (below 16), the one-shot `digest` (which resolves the
block size with `getattr(inner, 'block_size', 64)` and never clamps)
disagrees with the generic `new(k, None, A).update(m).digest()` path
(which clamps a declared size below 16 to 64) — already on the empty key
and empty message. -/
theorem oneShot_ne_generic_small_blockSize :
    digestOneShot capSmall [] []
      ≠ (HMAC.digestM (HMAC.update (HMAC.mkWith capSmall [] none).1 [])).1 := by
  decide

/-- Claim C1, amended: the one-shot entry point agrees with the generic
construction for every key and message whenever the capability's declared
`block_size` is absent or at least 16; for a declared size below 16 the
two paths resolve different block sizes and can disagree. -/
theorem oneShot_eq_generic_of_sane_blockSize (cap : HashCap)
    (hbs : cap.blockSize? = none ∨ ∃ bs, cap.blockSize? = some bs ∧ 16 ≤ bs)
    (key msg : List Nat) :
    digestOneShot cap key msg
      = (HMAC.digestM (HMAC.update (HMAC.mkWith cap key none).1 msg)).1 := by
  have h : cap.blockSize?.getD 64 = resolvedBlockSize cap := by
    rcases hbs with h | ⟨bs, h, hge⟩
    · simp [resolvedBlockSize, h, HMAC.blocksize]
    · simp [resolvedBlockSize, h, HMAC.blocksize, Nat.not_lt.mpr hge]
  simp [digestOneShot, HMAC.mkWith, HMAC.update, HMAC.digestM, HMAC.current,
        HashCap.instUpdate, HashCap.instDigest, h, ljust]

/-- Witness for the amended C1 theorem at a concrete capability, key and
message. -/
theorem oneShot_eq_generic_witness :
    (capSane.blockSize? = none ∨ ∃ bs, capSane.blockSize? = some bs ∧ 16 ≤ bs) ∧
    digestOneShot capSane [1, 2] [3]
      = (HMAC.digestM (HMAC.update (HMAC.mkWith capSane [1, 2] none).1 [3])).1 :=
  ⟨Or.inr ⟨16, rfl, by norm_num⟩,
   oneShot_eq_generic_of_sane_blockSize capSane (Or.inr ⟨16, rfl, by norm_num⟩) [1, 2] [3]⟩

set_option maxRecDepth 10000 in
/-- Claim C4, counterexample: for a conforming capability whose digest
(32 bytes) is wider than its declared block size (16), a 17-byte key is
longer than the resolved block size, yet the tag does not equal the tag
under the effective key `digestFn key` — the second construction
collapses that 32-byte key a second time. -/
theorem oversized_key_collapse_fails_wide_digest :
    resolvedBlockSize capWide < (List.replicate 17 1).length ∧
    hmacTag capWide (List.replicate 17 1) []
      ≠ hmacTag capWide (capWide.digestFn (List.replicate 17 1)) [] := by
  decide

/-- Claim C4, amended: for every key longer than the resolved block size,
the tag equals the tag under the effective key `digestFn key`, provided
that effective key is no longer than the block size (true of every
standard algorithm, where `digest_size ≤ block_size`); the effective key
is then zero-padded to exactly the block size. -/
theorem oversized_key_collapse (cap : HashCap) (key msg : List Nat)
    (h1 : resolvedBlockSize cap < key.length)
    (h2 : (cap.digestFn key).length ≤ resolvedBlockSize cap) :
    hmacTag cap key msg = hmacTag cap (cap.digestFn key) msg ∧
    (ljust (cap.digestFn key) (resolvedBlockSize cap)).length = resolvedBlockSize cap := by
  have h2' : ¬ (resolvedBlockSize cap < (cap.digestFn key).length) := Nat.not_lt.mpr h2
  constructor
  · simp [hmacTag, HMAC.mkWith, HMAC.update, HMAC.digestM, HMAC.current,
          HashCap.instUpdate, HashCap.instDigest, h1, h2']
  · simp only [ljust, List.length_append, List.length_replicate]
    omega

/-- Witness for the amended C4 theorem at a concrete capability, an
oversized key, and a message. -/
theorem oversized_key_collapse_witness :
    resolvedBlockSize capSane < (List.replicate 17 0).length ∧
    (capSane.digestFn (List.replicate 17 0)).length ≤ resolvedBlockSize capSane ∧
    (hmacTag capSane (List.replicate 17 0) [5]
        = hmacTag capSane (capSane.digestFn (List.replicate 17 0)) [5] ∧
      (ljust (capSane.digestFn (List.replicate 17 0)) (resolvedBlockSize capSane)).length
        = resolvedBlockSize capSane) :=
  ⟨by decide, by decide,
   oversized_key_collapse capSane (List.replicate 17 0) [5] (by decide) (by decide)⟩

/-- Claim C5: finalization is non-mutating and idempotent — `digest` and
`hexdigest` leave the session state (in particular `inner` and `outer`)
unchanged, two consecutive `digest` calls agree, and an `update` after a
`digest` yields the tag of the full concatenation of all data fed since
construction. -/
theorem digest_nonmutating_idempotent (s : HMACState) (cap : HashCap)
    (key x : List Nat) (xs : List (List Nat)) :
    (HMAC.digestM s).2 = s ∧
    (HMAC.hexdigestM s).2 = s ∧
    (HMAC.digestM (HMAC.digestM s).2).1 = (HMAC.digestM s).1 ∧
    (HMAC.digestM (HMAC.update
        (HMAC.digestM (HMAC.feedAll (HMAC.mkWith cap key none).1 xs)).2 x)).1
      = (HMAC.digestM (HMAC.feedAll (HMAC.mkWith cap key none).1 (xs ++ [x]))).1 := by
  refine ⟨rfl, rfl, rfl, ?_⟩
  simp [HMAC.feedAll, List.foldl_append, HMAC.digestM]

/-- Claim C6: `copy()` yields an independent checkpoint — after one
shared `update x` the copy and the original produce the same digest, and
under any further sequence of updates the copy's digests track exactly
those of a session evolved the same way (the two sessions share no
mutable state in the embedding, so updates to one cannot change the
other). -/
theorem copy_independent_checkpoint (s : HMACState) (x : List Nat) :
    (HMAC.digestM (HMAC.update s x)).1 = (HMAC.digestM (HMAC.update (HMAC.copy s) x)).1 ∧
    ∀ ys, (HMAC.digestM (HMAC.feedAll (HMAC.copy s) ys)).1
        = (HMAC.digestM (HMAC.feedAll s ys)).1 := by
  refine ⟨rfl, fun ys => ?_⟩
  rw [HMAC.feedAll_copy]
  exact HMAC.digestRes_copy _

/-- Claim C7: block-size resolution at construction — a declared
`block_size` of at least 16 is used as is with no diagnostic; an absent
attribute or a declared value below 16 falls back to the default 64 with
a warning-level diagnostic; and construction succeeds in every case. -/
theorem blockSize_resolution (cap : HashCap) (k : List Nat) (msg : Option (List Nat)) :
    (HMAC.mkWith cap k msg).1.block_size = some (resolvedBlockSize cap) ∧
    (cap.blockSize? = none →
      resolvedBlockSize cap = 64 ∧
        (HMAC.mkWith cap k msg).2 = [BlockSizeWarning.missingBlockSize]) ∧
    (∀ bs, cap.blockSize? = some bs → bs < 16 →
      resolvedBlockSize cap = 64 ∧
        (HMAC.mkWith cap k msg).2 = [BlockSizeWarning.weakBlockSize bs]) ∧
    (∀ bs, cap.blockSize? = some bs → 16 ≤ bs →
      resolvedBlockSize cap = bs ∧ (HMAC.mkWith cap k msg).2 = []) ∧
    hmacNew (KeyArg.bytes k) msg (some (DigestSpec.callable cap))
      = Except.ok (HMAC.mkWith cap k msg) := by
  refine ⟨?_, ?_, ?_, ?_, rfl⟩
  · cases msg <;> rfl
  · intro h
    simp [resolvedBlockSize, blockSizeWarnings, HMAC.mkWith, h, HMAC.blocksize]
  · intro bs h hlt
    simp [resolvedBlockSize, blockSizeWarnings, HMAC.mkWith, h, hlt, HMAC.blocksize]
  · intro bs h hge
    simp [resolvedBlockSize, blockSizeWarnings, HMAC.mkWith, h, Nat.not_lt.mpr hge]

/-- Witness for the C7 theorem: each resolution case at a concrete
capability. -/
theorem blockSize_resolution_witness :
    capNoBlock.blockSize? = none ∧
    (resolvedBlockSize capNoBlock = 64 ∧
      (HMAC.mkWith capNoBlock [1] none).2 = [BlockSizeWarning.missingBlockSize]) ∧
    (capSmall.blockSize? = some 8 ∧ 8 < 16) ∧
    (resolvedBlockSize capSmall = 64 ∧
      (HMAC.mkWith capSmall [1] none).2 = [BlockSizeWarning.weakBlockSize 8]) ∧
    (capSane.blockSize? = some 16 ∧ 16 ≤ 16) ∧
    (resolvedBlockSize capSane = 16 ∧ (HMAC.mkWith capSane [1] none).2 = []) :=
  ⟨rfl,
   (blockSize_resolution capNoBlock [1] none).2.1 rfl,
   ⟨rfl, by norm_num⟩,
   (blockSize_resolution capSmall [1] none).2.2.1 8 rfl (by norm_num),
   ⟨rfl, le_refl 16⟩,
   (blockSize_resolution capSane [1] none).2.2.2.1 16 rfl (le_refl 16)⟩

end HmacSpec
